import Mathlib

/-!
Verification of `Yolo/utils/model.py`: safe tar extraction, the SSD graph
rewrite, and the model download/prepare orchestration.

Paths are modelled as `String` (lists of characters) with faithful embeddings
of the `posixpath` functions the code calls: `os.path.join`,
`os.path.abspath` (= `normpath` after joining the process working directory),
and `os.path.commonprefix` (character-wise longest common prefix).
-/

namespace Model

/-- `posixpath.isabs`: a path is absolute iff it starts with a slash. -/
def isAbs (p : List Char) : Bool :=
  p.take 1 = ['/']

/-- `posixpath.join a b`: if `b` is absolute it replaces `a`; otherwise the
two are joined with a separator unless `a` is empty or already ends in one. -/
def pathJoin (a b : List Char) : List Char :=
  if isAbs b then b
  else if a = [] ∨ a.getLast? = some '/' then a ++ b
  else a ++ '/' :: b

/-- Split a character list on the slash character, like `path.split('/')`. -/
def splitSlash : List Char → List (List Char)
  | [] => [[]]
  | c :: rest =>
    if c = '/' then [] :: splitSlash rest
    else
      match splitSlash rest with
      | [] => [[c]]
      | comp :: comps => (c :: comp) :: comps

/-- The component loop of `posixpath.normpath`: drops empty and `.`
components, resolves `..` against the accumulated components. -/
def normLoop (hasSlash : Bool) : List (List Char) → List (List Char) → List (List Char)
  | acc, [] => acc
  | acc, comp :: rest =>
    if comp = [] ∨ comp = ['.'] then normLoop hasSlash acc rest
    else if comp ≠ ['.', '.'] ∨ (hasSlash = false ∧ acc = []) ∨
        (acc ≠ [] ∧ acc.getLast? = some ['.', '.']) then
      normLoop hasSlash (acc ++ [comp]) rest
    else if acc ≠ [] then normLoop hasSlash acc.dropLast rest
    else normLoop hasSlash acc rest

/-- `posixpath.normpath`: collapse duplicate slashes and `.`/`..` components;
one or two leading slashes are kept, three or more become one. -/
def normpath (p : List Char) : List Char :=
  if p = [] then ['.']
  else
    let ns : Nat :=
      if isAbs p then
        (if p.take 2 = ['/', '/'] ∧ p.take 3 ≠ ['/', '/', '/'] then 2 else 1)
      else 0
    let comps := normLoop (ns ≠ 0) [] (splitSlash p)
    let joined := List.replicate ns '/' ++ List.intercalate ['/'] comps
    if joined = [] then ['.'] else joined

/-- `posixpath.abspath` relative to an explicit process working directory
`cwd`: join a relative path onto `cwd`, then normalize. -/
def abspathL (cwd p : List Char) : List Char :=
  normpath (if isAbs p then p else pathJoin cwd p)

/-- `os.path.commonprefix` on two strings: the character-wise longest common
prefix. -/
def commonprefixL : List Char → List Char → List Char
  | a :: as, b :: bs => if a = b then a :: commonprefixL as bs else []
  | _, _ => []

/-- String-level `os.path.join`. -/
def os_path_join (a b : String) : String :=
  ⟨pathJoin a.data b.data⟩

/-- String-level `os.path.abspath`, with the process working directory passed
explicitly. -/
def os_path_abspath (cwd p : String) : String :=
  ⟨abspathL cwd.data p.data⟩

/-- `is_within_directory` from `model.py` lines 215-222: take `abspath` of
both the directory and the target and accept iff their common prefix equals
the absolute directory. -/
def is_within_directory (cwd directory target : String) : Bool :=
  decide (commonprefixL (os_path_abspath cwd directory).data
    (os_path_abspath cwd target).data = (os_path_abspath cwd directory).data)

/-- An archive member, identified by its stored name (`member.name`). -/
structure TarMember where
  name : String
deriving DecidableEq

/-- The validation loop of `safe_extract` (`model.py` lines 226-229): walk
the members in order and report the traversal error at the first member whose
joined destination fails `is_within_directory`. -/
def checkMembers (cwd path : String) : List TarMember → Option String
  | [] => none
  | m :: rest =>
    if is_within_directory cwd path (os_path_join path m.name) then
      checkMembers cwd path rest
    else some "Attempted Path Traversal in Tar File"

/-- `safe_extract` from `model.py` lines 224-231: check every member first;
only if all pass, extract them all (`tar.extractall`). The result is the
list of members written to disk together with the raised error, if any. -/
def safe_extract (cwd : String) (tar : List TarMember) (path : String) :
    List TarMember × Option String :=
  match checkMembers cwd path tar with
  | some e => ([], some e)
  | none => (tar, none)

/-- The common prefix of two lists equals the first list exactly when the
first list is a prefix of the second. -/
theorem commonprefixL_eq_left_iff (a b : List Char) :
    commonprefixL a b = a ↔ a.isPrefixOf b = true := by
  induction a generalizing b with
  | nil => cases b <;> simp [commonprefixL, List.isPrefixOf]
  | cons x xs ih =>
    cases b with
    | nil => simp [commonprefixL, List.isPrefixOf]
    | cons y ys =>
      by_cases hxy : x = y
      · subst hxy
        simp [commonprefixL, List.isPrefixOf, ih]
      · simp [commonprefixL, List.isPrefixOf, hxy, Ne.symm hxy]

/-- A list is its own common prefix with any extension of itself. -/
theorem commonprefixL_append (a x : List Char) :
    commonprefixL a (a ++ x) = a := by
  induction a with
  | nil => cases x <;> simp [commonprefixL]
  | cons c cs ih => simp [commonprefixL, ih]

/-- Joining onto an absolute second argument discards the first argument,
exactly as `posixpath.join` does. -/
theorem pathJoin_of_isAbs (a b : List Char) (h : isAbs b = true) :
    pathJoin a b = b := by
  simp [pathJoin, h]

/-- The member loop reports the traversal error whenever some member of the
list fails the directory check. -/
theorem checkMembers_eq_some_of_mem (cwd path : String) (tar : List TarMember)
    (m : TarMember) (hm : m ∈ tar)
    (hbad : is_within_directory cwd path (os_path_join path m.name) = false) :
    checkMembers cwd path tar = some "Attempted Path Traversal in Tar File" := by
  induction tar with
  | nil => cases hm
  | cons t rest ih =>
    by_cases ht : is_within_directory cwd path (os_path_join path t.name) = true
    · rcases List.mem_cons.mp hm with h | h
      · subst h
        rw [ht] at hbad
        cases hbad
      · simp [checkMembers, ht, ih h]
    · simp [checkMembers, ht]

/-- The member loop returns no error when every member passes the check. -/
theorem checkMembers_eq_none (cwd path : String) (tar : List TarMember)
    (h : ∀ m ∈ tar, is_within_directory cwd path (os_path_join path m.name) = true) :
    checkMembers cwd path tar = none := by
  induction tar with
  | nil => rfl
  | cons t rest ih =>
    have ht := h t (List.mem_cons_self t rest)
    simp [checkMembers, ht]
    exact ih fun m hm => h m (List.mem_cons_of_mem t hm)

/-- Helper: `safe_extract` returns the error pair whenever some member fails
the directory check. -/
theorem safe_extract_err_of_bad_member (cwd path : String)
    (tar : List TarMember) (m : TarMember) (hm : m ∈ tar)
    (hbad : is_within_directory cwd path (os_path_join path m.name) = false) :
    safe_extract cwd tar path = ([], some "Attempted Path Traversal in Tar File") := by
  unfold safe_extract
  rw [checkMembers_eq_some_of_mem cwd path tar m hm hbad]

/-- C1: if any archive member's computed destination path (the destination
directory joined with the member's name, made absolute) fails the
common-prefix check, `safe_extract` raises the path-traversal error and
nothing at all is extracted — the written-member list is empty, including
members that individually pass the check. -/
theorem safe_extract_aborts_all_on_any_traversal (cwd path : String)
    (tar : List TarMember) (m : TarMember) (hm : m ∈ tar)
    (hbad : is_within_directory cwd path (os_path_join path m.name) = false) :
    safe_extract cwd tar path = ([], some "Attempted Path Traversal in Tar File") :=
  safe_extract_err_of_bad_member cwd path tar m hm hbad

/-- Witness for C1: an archive holding a good member and a `../` traversal
member extracts nothing and reports the error. -/
theorem safe_extract_aborts_all_on_any_traversal_instance :
    safe_extract "/" [⟨"ok.txt"⟩, ⟨"../evil"⟩] "/dest" =
      ([], some "Attempted Path Traversal in Tar File") :=
  safe_extract_aborts_all_on_any_traversal "/" "/dest" [⟨"ok.txt"⟩, ⟨"../evil"⟩]
    ⟨"../evil"⟩ (by decide) (by decide)

/-- C2: the check is a naive string-prefix comparison: with destination
directory `/a/b`, the sibling path `/a/bc/evil` passes `is_within_directory`,
and `safe_extract` accepts (and extracts) a member whose computed destination
is that sibling path rather than rejecting it. -/
theorem sibling_directory_bypasses_check :
    is_within_directory "/" "/a/b" "/a/bc/evil" = true
    ∧ os_path_abspath "/" (os_path_join "/a/b" "../bc/evil") = "/a/bc/evil"
    ∧ safe_extract "/" [⟨"../bc/evil"⟩] "/a/b" = ([⟨"../bc/evil"⟩], none) := by
  decide

/-- C3: every member whose absolute destination lies strictly inside the
destination directory (its absolute path is the absolute directory plus a
slash and a suffix) passes `is_within_directory`, and when all members are
such, `safe_extract` extracts the whole archive without error. -/
theorem safe_extract_ok_of_all_inside (cwd path : String) (tar : List TarMember)
    (h : ∀ m ∈ tar, ∃ rest : List Char,
      (os_path_abspath cwd (os_path_join path m.name)).data =
        (os_path_abspath cwd path).data ++ '/' :: rest) :
    (∀ m ∈ tar, is_within_directory cwd path (os_path_join path m.name) = true)
    ∧ safe_extract cwd tar path = (tar, none) := by
  have hall : ∀ m ∈ tar, is_within_directory cwd path (os_path_join path m.name) = true := by
    intro m hm
    obtain ⟨rest, hr⟩ := h m hm
    unfold is_within_directory
    rw [decide_eq_true_eq, hr]
    exact commonprefixL_append _ _
  refine ⟨hall, ?_⟩
  unfold safe_extract
  rw [checkMembers_eq_none cwd path tar hall]

/-- Witness for C3: a two-member archive with destinations strictly inside
`/dest` extracts fully. -/
theorem safe_extract_ok_of_all_inside_instance :
    (∀ m ∈ [TarMember.mk "sub/file", TarMember.mk "top"],
      is_within_directory "/" "/dest" (os_path_join "/dest" m.name) = true)
    ∧ safe_extract "/" [TarMember.mk "sub/file", TarMember.mk "top"] "/dest" =
        ([TarMember.mk "sub/file", TarMember.mk "top"], none) :=
  safe_extract_ok_of_all_inside "/" "/dest" [TarMember.mk "sub/file", TarMember.mk "top"]
    (by
      intro m hm
      rcases List.mem_cons.mp hm with h | h
      · exact ⟨"sub/file".data, by rw [h]; decide⟩
      · rcases List.mem_cons.mp h with h2 | h2
        · exact ⟨"top".data, by rw [h2]; decide⟩
        · cases h2)

/-- C8: a member whose stored name is an absolute path makes `os.path.join`
discard the destination directory entirely; if the absolute destination
directory is not a string prefix of that member's absolute path, the member
fails the check and `safe_extract` aborts, extracting nothing. -/
theorem absolute_member_rejected_unless_prefixed (cwd path : String)
    (tar : List TarMember) (m : TarMember) (hm : m ∈ tar)
    (habs : isAbs m.name.data = true)
    (hpre : (os_path_abspath cwd path).data.isPrefixOf
      (os_path_abspath cwd m.name).data = false) :
    os_path_join path m.name = m.name
    ∧ safe_extract cwd tar path = ([], some "Attempted Path Traversal in Tar File") := by
  have hjoin : os_path_join path m.name = m.name := by
    unfold os_path_join
    rw [pathJoin_of_isAbs _ _ habs]
  refine ⟨hjoin, ?_⟩
  have hbad : is_within_directory cwd path (os_path_join path m.name) = false := by
    rw [hjoin]
    unfold is_within_directory
    rw [decide_eq_false_iff_not]
    intro hcp
    rw [commonprefixL_eq_left_iff] at hcp
    rw [hcp] at hpre
    cases hpre
  exact safe_extract_err_of_bad_member cwd path tar m hm hbad

/-- Witness for C8: a member named `/etc/passwd` aborts extraction into
`/dest`; the join step is shown to ignore the destination directory. -/
theorem absolute_member_rejected_unless_prefixed_instance :
    os_path_join "/dest" (TarMember.mk "/etc/passwd").name = "/etc/passwd"
    ∧ safe_extract "/" [TarMember.mk "/etc/passwd"] "/dest" =
        ([], some "Attempted Path Traversal in Tar File") :=
  absolute_member_rejected_unless_prefixed "/" "/dest" [TarMember.mk "/etc/passwd"]
    ⟨"/etc/passwd"⟩ (by decide) (by decide) (by decide)

/-! The SSD graph rewrite (`ssd_unsupported_nodes_to_plugin_nodes`,
`model.py` lines 38-127). The graph operations `collapse_namespaces` and
`remove` live in the external `graphsurgeon` library, so they are modelled
from the spec's contract; the namespace-to-plugin map and the call sequence
are embedded from the source. Node attribute values (shapes, thresholds,
anchor ratios) play no role in the claims and are not modelled. -/

/-- A computation-graph node: a name, an operation type and input references
by name. -/
structure Node where
  name : String
  op : String
  inputs : List String
deriving DecidableEq

/-- A graph: a node list plus the registered output names. -/
structure Graph where
  nodes : List Node
  outputs : List String
deriving DecidableEq

/-- A node name belongs to a namespace when it equals the namespace name or
starts with it as a qualified (slash-separated) prefix. -/
def inNamespace (ns name : String) : Bool :=
  decide (name = ns) || (ns.data ++ ['/']).isPrefixOf name.data

/-- First mapping entry whose namespace matches the given node name. -/
def matchEntry : List (String × Node) → String → Option Node
  | [], _ => none
  | e :: rest, name => if inNamespace e.1 name then some e.2 else matchEntry rest name

/-- Rewire one input reference: references to a collapsed node become
references to its replacement node's name. -/
def renameInput (m : List (String × Node)) (i : String) : String :=
  match matchEntry m i with
  | some r => r.name
  | none => i

/-- Modelled from the spec: `graphsurgeon.DynamicGraph.collapse_namespaces`
is external library code not present in this repository. Per the spec's
contract, every node whose name is a mapping key or starts with one as a
qualified prefix is collapsed into the mapping value node (one replacement
node per distinct value), and each remaining node's input references to
collapsed nodes are rewired to the replacement node's name. -/
def collapse_namespaces (m : List (String × Node)) (g : Graph) : Graph :=
  { nodes :=
      ((g.nodes.filter fun n => (matchEntry m n.name).isNone).map
        fun n => { n with inputs := n.inputs.map (renameInput m) })
      ++ (g.nodes.filterMap fun n => matchEntry m n.name).dedup,
    outputs := g.outputs.map (renameInput m) }

/-- Modelled from the spec: `graphsurgeon.DynamicGraph.remove` with
`remove_exclusive_dependencies=False` — the only configuration `model.py`
uses (line 126) — deletes the named nodes from the node list and from the
registered outputs and touches nothing else; dependency subgraphs are not
cascade-removed. -/
def removeNodes (g : Graph) (names : List String) : Graph :=
  { nodes := g.nodes.filter fun n => decide (n.name ∉ names),
    outputs := g.outputs.filter fun o => decide (o ∉ names) }

/-- The `Input` placeholder plugin node (`model.py` lines 61-64). -/
def Input : Node := ⟨"Input", "Placeholder", []⟩

/-- The `GridAnchor` plugin node (`model.py` lines 65-72). -/
def PriorBox : Node := ⟨"GridAnchor", "GridAnchor_TRT", []⟩

/-- The `NMS` plugin node (`model.py` lines 73-87). -/
def NMS : Node := ⟨"NMS", "NMS_TRT", []⟩

/-- The `concat_priorbox` node (`model.py` lines 88-93). -/
def concat_priorbox : Node := ⟨"concat_priorbox", "ConcatV2", []⟩

/-- The `concat_box_loc` plugin node (`model.py` lines 94-100). -/
def concat_box_loc : Node := ⟨"concat_box_loc", "FlattenConcat_TRT", []⟩

/-- The `concat_box_conf` plugin node (`model.py` lines 101-107). -/
def concat_box_conf : Node := ⟨"concat_box_conf", "FlattenConcat_TRT", []⟩

/-- The fixed namespace-to-plugin mapping (`model.py` lines 110-120). -/
def namespace_plugin_map : List (String × Node) :=
  [("MultipleGridAnchorGenerator", PriorBox),
   ("Postprocessor", NMS),
   ("Preprocessor", Input),
   ("ToFloat", Input),
   ("image_tensor", Input),
   ("MultipleGridAnchorGenerator/Concatenate", concat_priorbox),
   ("MultipleGridAnchorGenerator/Identity", concat_priorbox),
   ("concat", concat_box_loc),
   ("concat_1", concat_box_conf)]

/-- `ssd_unsupported_nodes_to_plugin_nodes` (`model.py` lines 122-127):
collapse the fixed namespaces into plugin nodes, then remove the graph's
registered outputs without cascading into their dependencies. -/
def ssd_unsupported_nodes_to_plugin_nodes (g : Graph) : Graph :=
  removeNodes (collapse_namespaces namespace_plugin_map g)
    (collapse_namespaces namespace_plugin_map g).outputs

/-- `dep` is an upstream dependency of `src` in graph `g`: reachable from a
node named `src` by following input references. -/
inductive UpstreamDep (g : Graph) : String → String → Prop where
  | direct (n : Node) (hn : n ∈ g.nodes) (d : String) (hd : d ∈ n.inputs) :
      UpstreamDep g n.name d
  | trans (a b c : String) (h1 : UpstreamDep g a b) (h2 : UpstreamDep g b c) :
      UpstreamDep g a c

/-- A matched replacement node is one of the mapping's values. -/
theorem matchEntry_mem_values (m : List (String × Node)) (s : String) (r : Node)
    (h : matchEntry m s = some r) : r ∈ m.map Prod.snd := by
  induction m with
  | nil => cases h
  | cons e rest ih =>
    by_cases he : inNamespace e.1 s = true
    · simp [matchEntry, he] at h
      simp [h]
    · simp [matchEntry, he] at h
      exact List.mem_cons_of_mem _ (ih h)

/-- Rewiring never produces the name of a collapsed node, provided no
replacement value carries that name. -/
theorem renameInput_ne_collapsed (m : List (String × Node)) (i target : String)
    (hmatch : matchEntry m target ≠ none)
    (hvals : ∀ r ∈ m.map Prod.snd, r.name ≠ target) :
    renameInput m i ≠ target := by
  unfold renameInput
  cases h : matchEntry m i with
  | none =>
    intro he
    subst he
    exact hmatch h
  | some r => exact hvals r (matchEntry_mem_values m i r h)

/-- C4: collapsing with the fixed namespace map replaces the nodes named
`Postprocessor/foo` and `Postprocessor/bar` by the single `NMS` plugin node:
neither name survives, the `NMS` node is present, no surviving node's inputs
mention either name any more, every node outside all collapsed namespaces
survives with its inputs rewritten entry-wise by the map, and the rewiring
sends references to both nodes to `"NMS"`. -/
theorem collapse_replaces_postprocessor_with_single_NMS (g : Graph)
    (hfoo : "Postprocessor/foo" ∈ g.nodes.map Node.name)
    (hbar : "Postprocessor/bar" ∈ g.nodes.map Node.name) :
    (∀ n ∈ (collapse_namespaces namespace_plugin_map g).nodes,
      n.name ≠ "Postprocessor/foo" ∧ n.name ≠ "Postprocessor/bar")
    ∧ NMS ∈ (collapse_namespaces namespace_plugin_map g).nodes
    ∧ (∀ n ∈ (collapse_namespaces namespace_plugin_map g).nodes,
        ∀ i ∈ n.inputs, i ≠ "Postprocessor/foo" ∧ i ≠ "Postprocessor/bar")
    ∧ (∀ n ∈ g.nodes, matchEntry namespace_plugin_map n.name = none →
        Node.mk n.name n.op (n.inputs.map (renameInput namespace_plugin_map))
          ∈ (collapse_namespaces namespace_plugin_map g).nodes)
    ∧ renameInput namespace_plugin_map "Postprocessor/foo" = "NMS"
    ∧ renameInput namespace_plugin_map "Postprocessor/bar" = "NMS" := by
  have hfooM : matchEntry namespace_plugin_map "Postprocessor/foo" = some NMS := by decide
  have hbarM : matchEntry namespace_plugin_map "Postprocessor/bar" = some NMS := by decide
  have hvals : ∀ r ∈ namespace_plugin_map.map Prod.snd,
      r.name ≠ "Postprocessor/foo" ∧ r.name ≠ "Postprocessor/bar" ∧ r.inputs = [] := by
    decide
  refine ⟨?_, ?_, ?_, ?_, by decide, by decide⟩
  · intro n hn
    rcases List.mem_append.mp hn with hk | hr
    · rcases List.mem_map.mp hk with ⟨n0, hn0f, hEq⟩
      have hnone : matchEntry namespace_plugin_map n0.name = none :=
        Option.isNone_iff_eq_none.mp (List.mem_filter.mp hn0f).2
      have hname : n.name = n0.name := by rw [← hEq]
      rw [hname]
      constructor
      · intro h
        rw [h, hfooM] at hnone
        cases hnone
      · intro h
        rw [h, hbarM] at hnone
        cases hnone
    · rcases List.mem_filterMap.mp (List.mem_dedup.mp hr) with ⟨n0, hn0, hsome⟩
      have hv := hvals n (matchEntry_mem_values _ _ _ hsome)
      exact ⟨hv.1, hv.2.1⟩
  · rcases List.mem_map.mp hfoo with ⟨n0, hn0, hname⟩
    apply List.mem_append.mpr
    right
    apply List.mem_dedup.mpr
    apply List.mem_filterMap.mpr
    refine ⟨n0, hn0, ?_⟩
    rw [show Node.name n0 = n0.name from rfl] at hname
    rw [hname]
    exact hfooM
  · intro n hn i hi
    rcases List.mem_append.mp hn with hk | hr
    · rcases List.mem_map.mp hk with ⟨n0, hn0f, hEq⟩
      have hinp : n.inputs = n0.inputs.map (renameInput namespace_plugin_map) := by
        rw [← hEq]
      rw [hinp] at hi
      rcases List.mem_map.mp hi with ⟨j, hj, hrn⟩
      rw [← hrn]
      constructor
      · exact renameInput_ne_collapsed _ _ _ (by rw [hfooM]; simp)
          (fun r hr => (hvals r hr).1)
      · exact renameInput_ne_collapsed _ _ _ (by rw [hbarM]; simp)
          (fun r hr => (hvals r hr).2.1)
    · rcases List.mem_filterMap.mp (List.mem_dedup.mp hr) with ⟨n0, hn0, hsome⟩
      have hv := (hvals n (matchEntry_mem_values _ _ _ hsome)).2.2
      rw [hv] at hi
      cases hi
  · intro n hn hnone
    apply List.mem_append.mpr
    left
    apply List.mem_map.mpr
    refine ⟨n, ?_, rfl⟩
    exact List.mem_filter.mpr ⟨hn, Option.isNone_iff_eq_none.mpr hnone⟩

/-- Witness graph for the collapse claim: the two `Postprocessor` nodes and
an external consumer referencing one of them. -/
def gW4 : Graph :=
  ⟨[⟨"Postprocessor/foo", "OpA", []⟩,
    ⟨"Postprocessor/bar", "OpB", ["Postprocessor/foo"]⟩,
    ⟨"ext", "OpC", ["Postprocessor/foo", "other"]⟩], ["ext"]⟩

/-- Witness for C4: the collapse claim instantiated at a concrete graph. -/
theorem collapse_replaces_postprocessor_with_single_NMS_instance :
    (∀ n ∈ (collapse_namespaces namespace_plugin_map gW4).nodes,
      n.name ≠ "Postprocessor/foo" ∧ n.name ≠ "Postprocessor/bar")
    ∧ NMS ∈ (collapse_namespaces namespace_plugin_map gW4).nodes
    ∧ (∀ n ∈ (collapse_namespaces namespace_plugin_map gW4).nodes,
        ∀ i ∈ n.inputs, i ≠ "Postprocessor/foo" ∧ i ≠ "Postprocessor/bar")
    ∧ (∀ n ∈ gW4.nodes, matchEntry namespace_plugin_map n.name = none →
        Node.mk n.name n.op (n.inputs.map (renameInput namespace_plugin_map))
          ∈ (collapse_namespaces namespace_plugin_map gW4).nodes)
    ∧ renameInput namespace_plugin_map "Postprocessor/foo" = "NMS"
    ∧ renameInput namespace_plugin_map "Postprocessor/bar" = "NMS" :=
  collapse_replaces_postprocessor_with_single_NMS gW4 (by decide) (by decide)

/-- C5: removing the collapsed graph's registered outputs with cascading
disabled (as `ssd_unsupported_nodes_to_plugin_nodes` does) empties the
registered outputs, while every node that is not itself a registered output —
in particular every upstream dependency of a removed output, nodes reachable
only through it included — remains in the node set unchanged. -/
theorem remove_outputs_keeps_upstream_dependencies (g : Graph) (n : Node) (o : String)
    (ho : o ∈ (collapse_namespaces namespace_plugin_map g).outputs)
    (hup : UpstreamDep (collapse_namespaces namespace_plugin_map g) o n.name)
    (hn : n ∈ (collapse_namespaces namespace_plugin_map g).nodes)
    (hno : n.name ∉ (collapse_namespaces namespace_plugin_map g).outputs) :
    (ssd_unsupported_nodes_to_plugin_nodes g).outputs = []
    ∧ n ∈ (ssd_unsupported_nodes_to_plugin_nodes g).nodes := by
  unfold ssd_unsupported_nodes_to_plugin_nodes removeNodes
  constructor
  · rw [List.filter_eq_nil_iff]
    intro a ha
    simp [ha]
  · exact List.mem_filter.mpr ⟨hn, decide_eq_true hno⟩

/-- Witness graph for the pruning claim: node `B` is the registered output
and depends on node `A`, reachable only through `B`. -/
def gW5 : Graph := ⟨[⟨"A", "OpA", []⟩, ⟨"B", "OpB", ["A"]⟩], ["B"]⟩

/-- Witness for C5: pruning the concrete graph empties the outputs but keeps
the upstream dependency node `A`. -/
theorem remove_outputs_keeps_upstream_dependencies_instance :
    (ssd_unsupported_nodes_to_plugin_nodes gW5).outputs = []
    ∧ Node.mk "A" "OpA" [] ∈ (ssd_unsupported_nodes_to_plugin_nodes gW5).nodes :=
  remove_outputs_keeps_upstream_dependencies gW5 ⟨"A", "OpA", []⟩ "B" (by decide)
    (UpstreamDep.direct ⟨"B", "OpB", ["A"]⟩ (by decide) "A" (by decide))
    (by decide) (by decide)

/-! Model download and preparation (`model.py` lines 149-256). Network and
filesystem activity is modelled as a trace of effects; the HTTP response and
the archive contents are inputs to the model. -/

/-- An observable I/O effect of the download/prepare pipeline. -/
inductive Effect where
  | printMsg : String → Effect
  | mkdir : String → Effect
  | download : String → String → Effect
  | extract : String → Effect
  | removeFile : String → Effect
  | convertToUff : String → String → Effect
deriving DecidableEq

/-- An error the pipeline can raise. -/
inductive PrepError where
  | notImplemented : String → PrepError
  | pathTraversal : String → PrepError
deriving DecidableEq

/-- Modelled from the spec: the `PATHS` helpers live in `utils/paths.py`,
which is not among the sources; per the spec they deterministically derive
the models directory, the download URL and the `.pb`/`.uff` file paths from
the model name, so they are abstracted as function-valued fields. -/
structure Paths where
  models_dir : String
  model_url : String → String
  model_pb_path : String → String
  model_uff_path : String → String

/-- The environment a run observes: whether the models directory already
exists, the members of the downloaded archive, and the process working
directory consulted by `os.path.abspath`. -/
structure Env where
  models_dir_exists : Bool
  archive : List TarMember
  cwd : String

/-- `maybe_print` (`model.py` lines 151-159) as a trace. -/
def maybe_print (should_print : Bool) (print_arg : String) : List Effect :=
  if should_print then [Effect.printMsg print_arg] else []

/-- `maybe_mkdir` (`model.py` lines 161-168) as a trace: the directory is
created only when it does not exist. -/
def maybe_mkdir (dir_exists : Bool) (dir_path : String) : List Effect :=
  if dir_exists then [] else [Effect.mkdir dir_path]

/-- `download_model` (`model.py` lines 200-237) as a trace: print, ensure
the models directory, download the archive, safely extract it into the
models directory, delete the archive. The run stops with the path-traversal
error when `safe_extract` raises. -/
def download_model (P : Paths) (env : Env) (model_name : String) (silent : Bool) :
    List Effect × Option PrepError :=
  let model_archive_path := os_path_join P.models_dir (model_name ++ ".tar.gz")
  let pre :=
    maybe_print (!silent) "Preparing pretrained model"
    ++ maybe_mkdir env.models_dir_exists P.models_dir
    ++ maybe_print (!silent) ("Downloading " ++ model_archive_path)
    ++ [Effect.download (P.model_url model_name) model_archive_path]
    ++ maybe_print (!silent) ("Download complete\nUnpacking " ++ model_archive_path)
  match (safe_extract env.cwd env.archive P.models_dir).2 with
  | some e => (pre, some (PrepError.pathTraversal e))
  | none =>
    (pre ++ [Effect.extract model_archive_path]
      ++ maybe_print (!silent) ("Extracting complete\nRemoving " ++ model_archive_path)
      ++ [Effect.removeFile model_archive_path]
      ++ maybe_print (!silent) "Model ready", none)

/-- The default argument of `prepare_ssd_model` (`model.py` line 239). -/
def default_model_name : String := "ssd_inception_v2_coco_2017_11_17"

/-- `prepare_ssd_model` (`model.py` lines 239-256): any model name other
than the supported one is rejected up front with `NotImplementedError` and
an empty effect trace; otherwise the model is downloaded, extracted and
converted to UFF. -/
def prepare_ssd_model (P : Paths) (env : Env) (model_name : String) (silent : Bool) :
    List Effect × Option PrepError :=
  if model_name ≠ default_model_name then
    ([], some (PrepError.notImplemented ("Model " ++ model_name ++ " is not supported yet")))
  else
    match download_model P env model_name silent with
    | (eff, some e) => (eff, some e)
    | (eff, none) =>
      (eff ++ [Effect.convertToUff (P.model_pb_path model_name) (P.model_uff_path model_name)],
        none)

/-- C6: for every model name other than the supported one,
`prepare_ssd_model` raises the unsupported-model error before performing any
I/O — the effect trace is empty: no directory creation, no download, no
extraction. -/
theorem unsupported_model_rejected_before_io (P : Paths) (env : Env)
    (model_name : String) (silent : Bool) (h : model_name ≠ default_model_name) :
    prepare_ssd_model P env model_name silent =
      ([], some (PrepError.notImplemented
        ("Model " ++ model_name ++ " is not supported yet"))) := by
  unfold prepare_ssd_model
  rw [if_pos h]

/-- Concrete `Paths` for witnesses. -/
def pathsW : Paths :=
  ⟨"/models", fun n => "http://zoo/" ++ n ++ ".tar.gz",
    fun n => "/models/" ++ n ++ ".pb", fun n => "/models/" ++ n ++ ".uff"⟩

/-- Concrete environment for witnesses: directory exists, benign archive. -/
def envW : Env := ⟨true, [⟨"frozen_inference_graph.pb"⟩], "/"⟩

/-- Witness for C6: requesting a YOLO model yields the error and an empty
trace. -/
theorem unsupported_model_rejected_before_io_instance :
    prepare_ssd_model pathsW envW "yolo_v3" false =
      ([], some (PrepError.notImplemented "Model yolo_v3 is not supported yet")) :=
  unsupported_model_rejected_before_io pathsW envW "yolo_v3" false (by decide)

/-- The download step never produces the unsupported-model error. -/
theorem download_model_no_notImplemented (P : Paths) (env : Env)
    (model_name : String) (silent : Bool) (msg : String) :
    (download_model P env model_name silent).2 ≠
      some (PrepError.notImplemented msg) := by
  unfold download_model
  cases h : (safe_extract env.cwd env.archive P.models_dir).2 <;> simp [h]

/-- C9: calling `prepare_ssd_model` with its default model name never raises
the unsupported-model `NotImplementedError` — the guard branch is
unreachable for a zero-argument call. -/
theorem default_model_never_unsupported (P : Paths) (env : Env) (silent : Bool)
    (msg : String) :
    (prepare_ssd_model P env default_model_name silent).2 ≠
      some (PrepError.notImplemented msg) := by
  unfold prepare_ssd_model
  rw [if_neg (by simp)]
  rcases hd : download_model P env default_model_name silent with ⟨eff, err⟩
  cases err with
  | none => simp
  | some e =>
    simp only [ne_eq, Option.some.injEq]
    intro hc
    apply download_model_no_notImplemented P env default_model_name silent msg
    rw [hd, hc]

/-- Witness for C9: the default-name call on concrete inputs does not return
the unsupported-model error. -/
theorem default_model_never_unsupported_instance :
    (prepare_ssd_model pathsW envW default_model_name false).2 ≠
      some (PrepError.notImplemented "Model x is not supported yet") :=
  default_model_never_unsupported pathsW envW false "Model x is not supported yet"

/-- The HTTP response as `download_file` observes it: the chunk sequence
`iter_content` yields, the whole body `response.content`, and the optional
`content-length` header. -/
structure HttpResponse where
  chunks : List (List Nat)
  content : List Nat
  contentLength : Option Nat
deriving DecidableEq

/-- `download_file` (`model.py` lines 170-198), abstracted to its write
behaviour: the list of byte blocks written to the destination file, in
order. When the `content-length` header is missing — or when `silent` is
set (`model.py` line 183) — the whole body is written in one shot;
otherwise the chunks are written one by one while the progress counter
advances. -/
def download_file (r : HttpResponse) (silent : Bool) : List (List Nat) :=
  if r.contentLength = none ∨ silent = true then [r.content]
  else r.chunks

/-- The bytes that end up in the destination file: the written blocks
concatenated in order. -/
def bytesWritten (r : HttpResponse) (silent : Bool) : List Nat :=
  (download_file r silent).flatten

/-- Counterexample to C7 as stated: it is not true that the body is streamed
chunk-by-chunk whenever the `content-length` header is present — with
`silent = true` the code takes the buffered one-shot branch even though the
header is there, because line 183 tests `total_length is None or silent`. -/
theorem streaming_not_implied_by_content_length :
    ¬ (∀ (r : HttpResponse) (silent : Bool), r.contentLength ≠ none →
        download_file r silent = r.chunks) := by
  intro h
  have hc := h ⟨[[1], [2]], [1, 2], some 2⟩ true (by simp)
  exact absurd hc (by decide)

/-- C7 amended: the body is streamed in chunks written one at a time exactly
when the `content-length` header is present and `silent` is false; when the
header is absent, or when `silent` is set, the whole body is buffered and
written in one shot. -/
theorem chunked_iff_content_length_and_not_silent (r : HttpResponse) (silent : Bool) :
    (r.contentLength ≠ none → silent = false → download_file r silent = r.chunks)
    ∧ (r.contentLength = none ∨ silent = true → download_file r silent = [r.content]) := by
  constructor
  · intro h1 h2
    subst h2
    simp [download_file, h1]
  · intro h
    unfold download_file
    rw [if_pos h]

/-- Witness for the amended C7: with a `content-length` header the chunks
are written one by one when not silent, and in one shot when silent. -/
theorem chunked_iff_content_length_and_not_silent_instance :
    download_file ⟨[[1], [2]], [1, 2], some 2⟩ false = [[1], [2]]
    ∧ download_file ⟨[[1], [2]], [1, 2], some 2⟩ true = [[1, 2]] :=
  ⟨(chunked_iff_content_length_and_not_silent ⟨[[1], [2]], [1, 2], some 2⟩ false).1
      (by simp) rfl,
    (chunked_iff_content_length_and_not_silent ⟨[[1], [2]], [1, 2], some 2⟩ true).2
      (Or.inr rfl)⟩

/-- C10: for a response whose body equals the concatenation of its chunks
and which carries a `content-length` header, the bytes written to the
destination file are identical for `silent = true` and `silent = false`;
the flag changes only what is printed. -/
theorem silent_flag_preserves_written_bytes (r : HttpResponse)
    (hjoin : r.content = r.chunks.flatten) (hlen : r.contentLength ≠ none) :
    bytesWritten r true = bytesWritten r false := by
  have h1 : bytesWritten r true = r.content := by
    unfold bytesWritten download_file
    rw [if_pos (Or.inr rfl)]
    simp
  have h2 : bytesWritten r false = r.chunks.flatten := by
    unfold bytesWritten download_file
    rw [if_neg (by simp [hlen])]
  rw [h1, h2, hjoin]

/-- Witness for C10: a two-chunk response writes the same bytes silent or
not. -/
theorem silent_flag_preserves_written_bytes_instance :
    bytesWritten ⟨[[1], [2]], [1, 2], some 2⟩ true =
      bytesWritten ⟨[[1], [2]], [1, 2], some 2⟩ false :=
  silent_flag_preserves_written_bytes ⟨[[1], [2]], [1, 2], some 2⟩ (by decide) (by decide)

end Model
